import Mathlib

/-!
Verification of the graph-transformation and query-service core of the
neo4j_driver repository, as a shallow embedding in Lean 4.

Python values flowing through the transformer are JSON-like: strings,
numbers, booleans, None, lists and string-keyed dicts. Numbers are
modelled as rationals (Python ints and floats are both carried opaquely
by the code under verification; no arithmetic is performed on them).
Dicts are modelled as association lists in insertion order, which is the
iteration and output order of Python dicts.
-/

inductive PyVal where
  | str : String → PyVal
  | num : Rat → PyVal
  | bool : Bool → PyVal
  | none : PyVal
  | list : List PyVal → PyVal
  | dict : List (String × PyVal) → PyVal

abbrev PyDict := List (String × PyVal)

/-! Decidable equality for PyVal (the automatic derivation does not
support this nested inductive, so the boolean equality is defined by
hand and proved lawful). It models the Python == used for dict-key and
set-membership tests on the JSON-like values that occur here. -/

mutual

def PyVal.beq : PyVal → PyVal → Bool
  | .str x, .str y => x == y
  | .num x, .num y => x == y
  | .bool x, .bool y => x == y
  | .none, .none => true
  | .list xs, .list ys => beqPyList xs ys
  | .dict xs, .dict ys => beqPyDict xs ys
  | _, _ => false

def beqPyList : List PyVal → List PyVal → Bool
  | [], [] => true
  | x :: xs, y :: ys => PyVal.beq x y && beqPyList xs ys
  | _, _ => false

def beqPyDict : List (String × PyVal) → List (String × PyVal) → Bool
  | [], [] => true
  | (k1, v1) :: xs, (k2, v2) :: ys => k1 == k2 && PyVal.beq v1 v2 && beqPyDict xs ys
  | _, _ => false

end

theorem beqPyList_iff (xs ys : List PyVal)
    (h : ∀ x ∈ xs, ∀ y, (PyVal.beq x y = true ↔ x = y)) :
    (beqPyList xs ys = true) ↔ xs = ys := by
  induction xs generalizing ys with
  | nil => cases ys <;> simp [beqPyList]
  | cons x xs ih =>
    cases ys with
    | nil => simp [beqPyList]
    | cons y ys =>
      have hx := h x (List.mem_cons_self x xs) y
      have htail := ih ys (fun z hz w => h z (List.mem_cons_of_mem x hz) w)
      simp [beqPyList, hx, htail]

theorem beqPyDict_iff (xs ys : List (String × PyVal))
    (h : ∀ kv ∈ xs, ∀ w, (PyVal.beq kv.2 w = true ↔ kv.2 = w)) :
    (beqPyDict xs ys = true) ↔ xs = ys := by
  induction xs generalizing ys with
  | nil => cases ys <;> simp [beqPyDict]
  | cons kv xs ih =>
    cases ys with
    | nil => simp [beqPyDict]
    | cons kw ys =>
      obtain ⟨k1, v1⟩ := kv
      obtain ⟨k2, v2⟩ := kw
      have hv := h (k1, v1) (List.mem_cons_self _ _) v2
      have htail := ih ys (fun z hz w => h z (List.mem_cons_of_mem _ hz) w)
      simp only [Prod.snd] at hv
      simp [beqPyDict, hv, htail, and_assoc]

theorem pyBeq_iff : ∀ a b : PyVal, (PyVal.beq a b = true) ↔ a = b := by
  suffices h : ∀ (n : Nat) (a b : PyVal), sizeOf a ≤ n →
      ((PyVal.beq a b = true) ↔ a = b) from
    fun a b => h (sizeOf a) a b le_rfl
  intro n
  induction n with
  | zero => intro a b ha; exact absurd ha (by cases a <;> simp)
  | succ n ih =>
    intro a b ha
    cases a <;> cases b <;> simp_all [PyVal.beq]
    case list.list xs ys =>
      refine beqPyList_iff xs ys (fun x hx y => ih x y ?_)
      have := List.sizeOf_lt_of_mem hx
      omega
    case dict.dict xs ys =>
      refine beqPyDict_iff xs ys (fun kv hkv w => ih kv.2 w ?_)
      have h1 := List.sizeOf_lt_of_mem hkv
      obtain ⟨k, v⟩ := kv
      simp at h1 ⊢
      omega

instance : DecidableEq PyVal := fun a b => decidable_of_iff _ (pyBeq_iff a b)

/-- Python d.get(k) and d[k]: first (unique) binding of k. -/
def pyGet (d : PyDict) (k : String) : Option PyVal :=
  match d with
  | [] => Option.none
  | (k1, v) :: rest => if k1 = k then some v else pyGet rest k

/-- Python d[k] = v: update the binding in place if k is present
(keeping its position), otherwise append a new binding. -/
def dictSet (d : PyDict) (k : String) (v : PyVal) : PyDict :=
  match d with
  | [] => [(k, v)]
  | (k1, v1) :: rest => if k1 = k then (k1, v) :: rest else (k1, v1) :: dictSet rest k v

/-- Python truthiness of the modelled values. -/
def pyTruthy : PyVal → Bool
  | .str s => s ≠ ""
  | .num q => q ≠ 0
  | .bool b => b
  | .none => false
  | .list l => !l.isEmpty
  | .dict d => !d.isEmpty

/-- Python str() as used by the f-string in generate_relationship_id.
Node ids that reach that f-string are hashable scalars (an unhashable
dict or list id would already have raised TypeError at the node-map
lookup, a case outside every claim considered here), so only the scalar
cases matter; the repr of a rational with denominator 1 matches the
Python str() of the corresponding int. -/
def pyStr : PyVal → String
  | .str s => s
  | .num q => if q.den = 1 then toString q.num else toString q
  | .bool true => "True"
  | .bool false => "False"
  | .none => "None"
  | .list _ => "<unhashable>"
  | .dict _ => "<unhashable>"

def isListVal : PyVal → Bool
  | .list _ => true
  | _ => false

def isDictVal : PyVal → Bool
  | .dict _ => true
  | _ => false

/-! Transformer configuration: DEFAULT_PARAMS merged with any caller
overrides, reduced to its three effective fields. -/

structure TParams where
  source_node_tag : String := "start"
  target_node_tag : String := "end"
  relationship_type_tag : String := "type"
deriving DecidableEq

def DEFAULT_PARAMS : TParams := {}

/-- DEFAULT_EXCLUDED_PROPERTIES of the source module. -/
def DEFAULT_EXCLUDED_PROPERTIES : List String := ["source", "target", "start", "end"]

def generate_relationship_id (start_id rel_type end_id : String) : String :=
  start_id ++ "_" ++ rel_type ++ "_" ++ end_id

/-- GraphTransformer._extract_node: the node dict is returned when it is
a dict, has an id key, and that id is not None. -/
def extract_node : Option PyVal → Option PyDict
  | some (.dict d) =>
    match pyGet d "id" with
    | some v => if v = PyVal.none then Option.none else some d
    | Option.none => Option.none
  | _ => Option.none

/-- GraphTransformer._extract_nodes_and_ids. -/
def extract_nodes_and_ids (p : TParams) (rd : PyDict) :
    Option PyDict × Option PyVal × Option PyDict × Option PyVal :=
  let start_node := extract_node (pyGet rd p.source_node_tag)
  let end_node := extract_node (pyGet rd p.target_node_tag)
  (start_node, start_node.bind (fun n => pyGet n "id"),
   end_node, end_node.bind (fun n => pyGet n "id"))

/-- The per-call exclusion set built in _transform_single_relationship. -/
def excludedKeys (p : TParams) : List String :=
  [p.source_node_tag, p.target_node_tag] ++ DEFAULT_EXCLUDED_PROPERTIES

/-- The property-copy loop of _transform_single_relationship. -/
def copyProps (excluded : List String) (rd : PyDict) (base : PyDict) : PyDict :=
  rd.foldl (fun acc kv => if kv.1 ∈ excluded then acc else dictSet acc kv.1 kv.2) base

/-- GraphTransformer._transform_single_relationship. -/
def transformSingleRelationship (p : TParams) (rd : PyDict) (start_id end_id : PyVal) :
    Option PyDict :=
  match pyGet rd p.relationship_type_tag with
  | some (.str t) =>
    if t = "" then Option.none
    else
      some (copyProps (excludedKeys p) rd
        [("id", PyVal.str (generate_relationship_id (pyStr start_id) t (pyStr end_id))),
         ("source", start_id), ("target", end_id), ("type", PyVal.str t)])
  | _ => Option.none

/-- Per-run state of GraphTransformer (reset at each transform_data call). -/
structure TState where
  uniqueNodes : List (PyVal × PyDict) := []
  rels : List PyDict := []
  processedRelIds : List PyVal := []
  total : Nat := 0
  skipped : Nat := 0
deriving DecidableEq

/-- Lookup in the unique-node map (Python dict keyed by node id). -/
def nodeGet (m : List (PyVal × PyDict)) (k : PyVal) : Option PyDict :=
  match m with
  | [] => Option.none
  | (k1, v) :: rest => if k1 = k then some v else nodeGet rest k

/-- The node registration of transform_data: insert only when the id is
not yet a key of the map. -/
def registerNode (m : List (PyVal × PyDict)) (k : PyVal) (nd : PyDict) :
    List (PyVal × PyDict) :=
  if (nodeGet m k).isSome then m else m ++ [(k, nd)]

/-- The body of the inner loop of transform_data, processing one
relationship value rel_data (an arbitrary value of an item dict). -/
def processRelData (p : TParams) (st : TState) (relData : PyVal) : TState :=
  match relData with
  | .dict rd =>
    let st1 : TState := { st with total := st.total + 1 }
    match extract_nodes_and_ids p rd with
    | (some sn, some sid, some en, some eid) =>
      if pyTruthy (.dict sn) && pyTruthy sid && pyTruthy (.dict en) && pyTruthy eid then
        let nodes2 := registerNode (registerNode st1.uniqueNodes sid sn) eid en
        match transformSingleRelationship p rd sid eid with
        | some tr =>
          -- transformed_rel is indexed directly at id, which is always a key
          let relId := (pyGet tr "id").getD PyVal.none
          if relId ∈ st1.processedRelIds then
            { st1 with uniqueNodes := nodes2 }
          else
            { st1 with uniqueNodes := nodes2,
                       rels := st1.rels ++ [tr],
                       processedRelIds := st1.processedRelIds ++ [relId] }
        | Option.none => { st1 with uniqueNodes := nodes2, skipped := st1.skipped + 1 }
      else { st1 with skipped := st1.skipped + 1 }
    | _ => { st1 with skipped := st1.skipped + 1 }
  | _ => { st with skipped := st.skipped + 1 }

/-- The body of the outer loop of transform_data, processing one item of
the input list: a dict whose values are relationship objects. -/
def processItem (p : TParams) (st : TState) (item : PyVal) : TState :=
  match item with
  | .dict d => d.foldl (fun s kv => processRelData p s kv.2) st
  | _ => { st with skipped := st.skipped + 1 }

/-- Folding the items of a list input through a fresh state. -/
def runItems (p : TParams) (items : List PyVal) : TState :=
  items.foldl (processItem p) {}

structure GraphOut where
  nodes : List PyDict
  relationships : List PyDict
deriving DecidableEq

/-- GraphTransformer.transform_data. -/
def transform_data (p : TParams) (source_data : PyVal) : GraphOut :=
  match source_data with
  | .list items =>
    let st := runItems p items
    { nodes := st.uniqueNodes.map (fun kv => kv.2), relationships := st.rels }
  | _ => { nodes := [], relationships := [] }

/-- TransformKGOutPxLSVizService.transform_to_pxlsviz: builds a
transformer from the parameters and runs transform_data. In the model
the configuration merge is already reflected in the TParams value. -/
def service_transform_to_pxlsviz (input_json : PyVal) (params : TParams) : GraphOut :=
  transform_data params input_json

/-- The hardcoded tmp graph returned by the POST /api/v1/transform/pxlsviz
handler in transform_routes.py. -/
def fixedPxLSVizGraph : GraphOut :=
  { nodes :=
      [[("id", .str "1"), ("type", .str "gene"), ("name", .str "TP53")],
       [("id", .str "2"), ("type", .str "disease"), ("name", .str "NSCLC")],
       [("id", .str "3"), ("type", .str "drug"), ("name", .str "Gefitinib")],
       [("id", .str "4"), ("type", .str "pathway"), ("name", .str "MAPK Signaling")]],
    relationships :=
      [[("id", .str "1"), ("source", .str "1"), ("target", .str "2"),
        ("relation", .str "contributes_to_or_causes"), ("weight", .num 3),
        ("evolution", .dict [("2005", .num 0.8), ("2010", .num 0.9),
          ("2015", .num 1), ("2020", .num 2), ("2025", .num 3)])],
       [("id", .str "2"), ("source", .str "3"), ("target", .str "1"),
        ("relation", .str "targets"), ("weight", .num 0.95),
        ("evolution", .dict [("2015", .num 0.9), ("2025", .num 0.95)])],
       [("id", .str "3"), ("source", .str "1"), ("target", .str "4"),
        ("relation", .str "participates_in"), ("weight", .num 0.85),
        ("evolution", .dict [("2005", .num 0.8), ("2015", .num 0.9),
          ("2025", .num 0.95)])]] }

/-- The body of the POST /api/v1/transform/pxlsviz route handler: it runs
the transform service on the request, then discards that result and
responds with the hardcoded tmp graph. An exception would map to a 500
error (the Except layer); the modelled service is total. -/
def transform_to_pxlsviz_route (input_json : PyVal) (params : TParams) :
    Except String GraphOut :=
  let _result := service_transform_to_pxlsviz input_json params
  Except.ok fixedPxLSVizGraph

/-! Query services. The database collaborator outcome is passed in
explicitly: Except.ok records when db.execute_query returns, and
Except.error message when it raises. -/

/-- The QueryResponse pydantic model. -/
structure QueryResponse where
  status : String
  count : Option Nat := Option.none
  results : Option (List PyVal) := Option.none
  error : Option String := Option.none
  metadata : PyDict
deriving DecidableEq

/-- QueryService.execute_cypher_query: the ENVELOPE-ON-ERROR variant.
Whatever the collaborator does, a QueryResponse envelope is returned
(the function is total: nothing is raised past this boundary). -/
def QueryService_execute_cypher_query (query : String) (params : Option PyDict)
    (request_id : String) (dbOutcome : Except String (List PyVal)) : QueryResponse :=
  match dbOutcome with
  | .ok results =>
    { status := "success", count := some results.length, results := some results,
      metadata := [("query", .str query), ("parameters", .dict (params.getD [])),
                   ("request_id", .str request_id)] }
  | .error e =>
    { status := "error", error := some ("Error executing query: " ++ e),
      metadata := [("query", .str query), ("parameters", .dict (params.getD [])),
                   ("request_id", .str request_id)] }

/-- ReadKGService.execute_cypher_query: the PROPAGATE-ON-ERROR variant.
A collaborator failure is logged and re-raised, modelled as Except.error. -/
def ReadKGService_execute_cypher_query (query : String) (params : Option PyDict)
    (request_id : String) (dbOutcome : Except String (List PyVal)) :
    Except String QueryResponse :=
  match dbOutcome with
  | .ok results =>
    .ok { status := "success", count := some results.length, results := some results,
          metadata := [("request_id", .str request_id), ("query", .str query),
                       ("parameters", match params with
                                      | some d => .dict d
                                      | Option.none => PyVal.none)] }
  | .error e => .error e

/-! Neo4jConnection._convert_to_serializable. Values coming back from
the driver may also be graph-native scalars, carried here with the
strings their conversions produce (iso_format for temporal values,
str for durations). json.loads is external to the repository and is
passed in as an abstract parser; a parse result models a successful
json.loads and Option.none models JSONDecodeError. The recursion is
fuel-indexed because a re-parsed string may itself contain further
JSON-looking strings; with zero fuel the value is returned unchanged
(Python always has enough fuel, as each re-parse strictly shrinks the
payload). -/

inductive NVal where
  | dict : List (String × NVal) → NVal
  | list : List NVal → NVal
  | date : String → NVal
  | dateTime : String → NVal
  | time : String → NVal
  | duration : String → NVal
  | point : Rat → Rat → Option Rat → Int → NVal
  | str : String → NVal
  | num : Rat → NVal
  | bool : Bool → NVal
  | none : NVal

/-- Python str.strip character class (ASCII whitespace as used here). -/
def pyIsSpace (c : Char) : Bool :=
  c = ' ' || c = '\t' || c = '\n' || c = '\r' || c = '\x0b' || c = '\x0c'

/-- Python data.strip(). -/
def pyStrip (s : String) : String :=
  ⟨((s.data.dropWhile pyIsSpace).reverse.dropWhile pyIsSpace).reverse⟩

/-- startswith with a single-character argument: the first character of
the string is that character. -/
def startsWithChar (s : String) (c : Char) : Bool :=
  match s.data with
  | [] => false
  | c1 :: _ => c1 = c

/-- The guard data.strip().startswith applied to the two JSON opener
characters. -/
def looksLikeJson (s : String) : Bool :=
  startsWithChar (pyStrip s) '\x7b' || startsWithChar (pyStrip s) '['

def convert_to_serializable (parse : String → Option NVal) : Nat → NVal → NVal
  | 0, v => v
  | fuel + 1, .dict d => .dict (d.map (fun kv => (kv.1, convert_to_serializable parse fuel kv.2)))
  | fuel + 1, .list l => .list (l.map (convert_to_serializable parse fuel))
  | _ + 1, .date s => .str s
  | _ + 1, .dateTime s => .str s
  | _ + 1, .time s => .str s
  | _ + 1, .duration s => .str s
  | _ + 1, .point x y z srid =>
    .dict [("x", .num x), ("y", .num y),
           ("z", match z with | some zz => .num zz | Option.none => .none),
           ("srid", .num srid)]
  | fuel + 1, .str s =>
    if looksLikeJson s then
      match parse s with
      | some v => convert_to_serializable parse fuel v
      | Option.none => .str s
    else .str s
  | _ + 1, .num q => .num q
  | _ + 1, .bool b => .bool b
  | _ + 1, .none => .none

/-! Concrete inputs used by individual claims. -/

/-- C1 input: a relationship record that carries its own id property. -/
def c1Input : PyVal := .list [.dict [("rel", .dict
  [("start", .dict [("id", .str "1")]),
   ("end", .dict [("id", .str "2")]),
   ("type", .str "KNOWS"),
   ("id", .str "custom")])]]

/-- C2 input: the single-record example of the spec. -/
def c2Input : PyVal := .list [.dict [("rel", .dict
  [("start", .dict [("id", .str "1")]),
   ("end", .dict [("id", .str "2")]),
   ("type", .str "KNOWS")])]]

/-- C4 input: two records deriving the same edge id. -/
def c4DupInput : PyVal := .list
  [.dict [("rel", .dict
    [("start", .dict [("id", .str "1")]),
     ("end", .dict [("id", .str "2")]),
     ("type", .str "KNOWS"),
     ("weight", .num 1)])],
   .dict [("rel2", .dict
    [("start", .dict [("id", .str "1")]),
     ("end", .dict [("id", .str "2")]),
     ("type", .str "KNOWS"),
     ("weight", .num 2)])]]

/-- C5 counterexample configuration: a non-default kind tag. -/
def c5Params : TParams := { relationship_type_tag := "kind" }

/-- C5 input: a record under the non-default kind tag. -/
def c5Input : PyVal := .list [.dict [("rel", .dict
  [("start", .dict [("id", .str "1")]),
   ("end", .dict [("id", .str "2")]),
   ("kind", .str "KNOWS")])]]

/-- A record whose kind field is missing, used when instantiating C6. -/
def c6Record : PyDict :=
  [("start", .dict [("id", .str "1")]),
   ("end", .dict [("id", .str "2")])]

/-- A concrete json.loads stand-in used when instantiating C10. -/
def c10Parse : String → Option NVal :=
  fun s => if s = "[1]" then some (.list [.num 1]) else Option.none

/-- The kind field of a record is missing, empty, or not a string:
exactly the condition under which _transform_single_relationship
returns early without an edge. -/
def InvalidRelType (p : TParams) (rd : PyDict) : Prop :=
  ∀ t, pyGet rd p.relationship_type_tag = some (PyVal.str t) → t = ""

/-- Hypothesis of the amended C1: every relationship record of the input
is a Python dict (no duplicate keys) with no id property of its own. -/
def recordsHaveNoIdProp (items : List PyVal) : Prop :=
  ∀ item ∈ items, ∀ d, item = PyVal.dict d → ∀ kv ∈ d, ∀ rd, kv.2 = PyVal.dict rd →
    pyGet rd "id" = Option.none ∧ (rd.map Prod.fst).Nodup

/-- Adding one to the skipped counter, as done for a malformed item. -/
def bumpSkip (st : TState) : TState := { st with skipped := st.skipped + 1 }

/-! Shared lemmas about the dict operations. -/

theorem pyGet_dictSet_self (d : PyDict) (k : String) (v : PyVal) :
    pyGet (dictSet d k v) k = some v := by
  induction d with
  | nil => simp [dictSet, pyGet]
  | cons kv rest ih =>
    obtain ⟨k1, v1⟩ := kv
    by_cases h : k1 = k <;> simp [dictSet, pyGet, h, ih]

theorem pyGet_dictSet_ne (d : PyDict) (k k' : String) (v : PyVal) (h : k' ≠ k) :
    pyGet (dictSet d k v) k' = pyGet d k' := by
  induction d with
  | nil => simp [dictSet, pyGet, Ne.symm h]
  | cons kv rest ih =>
    obtain ⟨k1, v1⟩ := kv
    by_cases h1 : k1 = k
    · subst h1
      rw [dictSet, if_pos rfl, pyGet, pyGet, if_neg (Ne.symm h), if_neg (Ne.symm h)]
    · rw [dictSet, if_neg h1, pyGet, pyGet]
      by_cases h2 : k1 = k' <;> simp [h2, ih]

theorem pyGet_eq_none_iff (d : PyDict) (k : String) :
    pyGet d k = Option.none ↔ k ∉ d.map Prod.fst := by
  induction d with
  | nil => simp [pyGet]
  | cons kv rest ih =>
    obtain ⟨k1, v1⟩ := kv
    by_cases h : k1 = k
    · subst h
      simp [pyGet]
    · rw [pyGet, if_neg h]
      simp only [List.map_cons, List.mem_cons, not_or, ih]
      exact ⟨fun hnm => ⟨fun hh => h hh.symm, hnm⟩, fun hh => hh.2⟩

theorem copyProps_cons (excluded : List String) (kv : String × PyVal)
    (rd base : PyDict) :
    copyProps excluded (kv :: rd) base =
      copyProps excluded rd (if kv.1 ∈ excluded then base else dictSet base kv.1 kv.2) := by
  simp [copyProps]

theorem copyProps_pyGet_excluded (excluded : List String) (rd : PyDict)
    (base : PyDict) (k : String) (hk : k ∈ excluded) :
    pyGet (copyProps excluded rd base) k = pyGet base k := by
  induction rd generalizing base with
  | nil => rfl
  | cons kv rd ih =>
    rw [copyProps_cons]
    by_cases h : kv.1 ∈ excluded
    · simp [h, ih]
    · have hne : k ≠ kv.1 := fun hh => h (hh ▸ hk)
      simp [h, ih, pyGet_dictSet_ne _ _ _ _ hne]

theorem copyProps_pyGet_notin (excluded : List String) (rd : PyDict)
    (base : PyDict) (k : String) (hrd : pyGet rd k = Option.none) :
    pyGet (copyProps excluded rd base) k = pyGet base k := by
  induction rd generalizing base with
  | nil => rfl
  | cons kv rd ih =>
    obtain ⟨k1, v1⟩ := kv
    by_cases h1 : k1 = k
    · subst h1
      simp [pyGet] at hrd
    · simp only [pyGet, if_neg h1] at hrd
      rw [copyProps_cons]
      by_cases h : k1 ∈ excluded
      · simp [h, ih _ hrd]
      · simp only [if_neg h]
        rw [ih _ hrd, pyGet_dictSet_ne _ _ _ _ (Ne.symm h1)]

theorem copyProps_pyGet_mem (excluded : List String) (rd : PyDict)
    (base : PyDict) (k : String) (v : PyVal) (hk : k ∉ excluded)
    (hnd : (rd.map Prod.fst).Nodup) (hv : pyGet rd k = some v) :
    pyGet (copyProps excluded rd base) k = some v := by
  induction rd generalizing base with
  | nil => simp [pyGet] at hv
  | cons kv rd ih =>
    obtain ⟨k1, v1⟩ := kv
    simp only [List.map_cons, List.nodup_cons] at hnd
    rw [copyProps_cons]
    by_cases h1 : k1 = k
    · subst h1
      rw [pyGet, if_pos rfl] at hv
      have hv1 : v1 = v := Option.some.inj hv
      subst hv1
      have hnone : pyGet rd k1 = Option.none := (pyGet_eq_none_iff rd k1).mpr hnd.1
      simp only [if_neg hk]
      rw [copyProps_pyGet_notin _ _ _ _ hnone, pyGet_dictSet_self]
    · rw [pyGet, if_neg h1] at hv
      by_cases h : k1 ∈ excluded
      · simp only [if_pos h]
        exact ih _ hnd.2 hv
      · simp only [if_neg h]
        exact ih _ hnd.2 hv

/-! Characterization of _transform_single_relationship. -/

theorem transformSingle_eq_some (p : TParams) (rd : PyDict) (sid eid : PyVal)
    (tr : PyDict) (h : transformSingleRelationship p rd sid eid = some tr) :
    ∃ t, pyGet rd p.relationship_type_tag = some (PyVal.str t) ∧ t ≠ "" ∧
      tr = copyProps (excludedKeys p) rd
        [("id", PyVal.str (generate_relationship_id (pyStr sid) t (pyStr eid))),
         ("source", sid), ("target", eid), ("type", PyVal.str t)] := by
  unfold transformSingleRelationship at h
  split at h
  case h_1 t heq =>
    split at h
    · exact absurd h (by simp)
    case isFalse ht => exact ⟨t, heq, ht, (Option.some.inj h).symm⟩
  case h_2 => exact absurd h (by simp)

theorem transformSingle_fixed_fields (p : TParams) (rd : PyDict) (sid eid : PyVal)
    (tr : PyDict) (h : transformSingleRelationship p rd sid eid = some tr) :
    pyGet tr "source" = some sid ∧ pyGet tr "target" = some eid := by
  obtain ⟨t, _, _, htr⟩ := transformSingle_eq_some p rd sid eid tr h
  subst htr
  have hs : "source" ∈ excludedKeys p := by
    simp [excludedKeys, DEFAULT_EXCLUDED_PROPERTIES]
  have hta : "target" ∈ excludedKeys p := by
    simp [excludedKeys, DEFAULT_EXCLUDED_PROPERTIES]
  rw [copyProps_pyGet_excluded _ _ _ _ hs, copyProps_pyGet_excluded _ _ _ _ hta]
  exact ⟨rfl, rfl⟩

theorem pyGet_of_mem_nodup (rd : PyDict) (kv : String × PyVal)
    (hnd : (rd.map Prod.fst).Nodup) (hkv : kv ∈ rd) :
    pyGet rd kv.1 = some kv.2 := by
  induction rd with
  | nil => cases hkv
  | cons kw rd ih =>
    obtain ⟨k1, v1⟩ := kw
    simp only [List.map_cons, List.nodup_cons] at hnd
    rcases List.mem_cons.mp hkv with h | h
    · subst h
      simp [pyGet]
    · have hne : k1 ≠ kv.1 := by
        intro hh
        exact hnd.1 (hh ▸ List.mem_map_of_mem Prod.fst h)
      rw [pyGet, if_neg hne]
      exact ih hnd.2 h

/-! Lemmas about the unique-node map. -/

theorem nodeGet_append_left (m l : List (PyVal × PyDict)) (k : PyVal) (v : PyDict)
    (h : nodeGet m k = some v) : nodeGet (m ++ l) k = some v := by
  induction m with
  | nil => simp [nodeGet] at h
  | cons kv m ih =>
    obtain ⟨k1, v1⟩ := kv
    by_cases h1 : k1 = k
    · rw [nodeGet, if_pos h1] at h
      rw [List.cons_append, nodeGet, if_pos h1]
      exact h
    · rw [nodeGet, if_neg h1] at h
      rw [List.cons_append, nodeGet, if_neg h1]
      exact ih h

theorem nodeGet_append_single (m : List (PyVal × PyDict)) (k : PyVal) (nd : PyDict)
    (h : nodeGet m k = Option.none) : nodeGet (m ++ [(k, nd)]) k = some nd := by
  induction m with
  | nil => simp [nodeGet]
  | cons kv m ih =>
    obtain ⟨k1, v1⟩ := kv
    by_cases h1 : k1 = k
    · rw [nodeGet, if_pos h1] at h
      cases h
    · rw [nodeGet, if_neg h1] at h
      rw [List.cons_append, nodeGet, if_neg h1]
      exact ih h

theorem nodeGet_eq_none_iff (m : List (PyVal × PyDict)) (k : PyVal) :
    nodeGet m k = Option.none ↔ k ∉ m.map Prod.fst := by
  induction m with
  | nil => simp [nodeGet]
  | cons kv m ih =>
    obtain ⟨k1, v1⟩ := kv
    by_cases h : k1 = k
    · subst h
      simp [nodeGet]
    · rw [nodeGet, if_neg h]
      simp only [List.map_cons, List.mem_cons, not_or, ih]
      exact ⟨fun hnm => ⟨fun hh => h hh.symm, hnm⟩, fun hh => hh.2⟩

theorem nodeGet_registerNode_preserved (m : List (PyVal × PyDict)) (k' : PyVal)
    (nd' : PyDict) (k : PyVal) (v : PyDict) (h : nodeGet m k = some v) :
    nodeGet (registerNode m k' nd') k = some v := by
  unfold registerNode
  split
  · exact h
  · exact nodeGet_append_left _ _ _ _ h

theorem nodeGet_registerNode_self (m : List (PyVal × PyDict)) (k : PyVal) (nd : PyDict) :
    (nodeGet (registerNode m k nd) k).isSome = true := by
  unfold registerNode
  split
  case isTrue h => exact h
  case isFalse h =>
    rw [nodeGet_append_single]
    · rfl
    · cases hn : nodeGet m k with
      | none => rfl
      | some w => rw [hn] at h; exact absurd rfl h

theorem nodeGet_registerNode_isSome (m : List (PyVal × PyDict)) (k' : PyVal)
    (nd' : PyDict) (k : PyVal) (h : (nodeGet m k).isSome = true) :
    (nodeGet (registerNode m k' nd') k).isSome = true := by
  cases hn : nodeGet m k with
  | none => rw [hn] at h; cases h
  | some v => rw [nodeGet_registerNode_preserved _ _ _ _ _ hn]; rfl

theorem registerNode_keys_nodup (m : List (PyVal × PyDict)) (k : PyVal) (nd : PyDict)
    (h : (m.map Prod.fst).Nodup) : ((registerNode m k nd).map Prod.fst).Nodup := by
  unfold registerNode
  split
  case isTrue => exact h
  case isFalse hno =>
    have hk : k ∉ m.map Prod.fst := by
      apply (nodeGet_eq_none_iff m k).mp
      cases hn : nodeGet m k with
      | none => rfl
      | some w => rw [hn] at hno; exact absurd rfl hno
    simp [List.nodup_append, h, hk]

theorem registerNode_id_prop (m : List (PyVal × PyDict)) (k : PyVal) (nd : PyDict)
    (hm : ∀ kv ∈ m, pyGet kv.2 "id" = some kv.1) (hnd : pyGet nd "id" = some k) :
    ∀ kv ∈ registerNode m k nd, pyGet kv.2 "id" = some kv.1 := by
  unfold registerNode
  split
  · exact hm
  · intro kv hkv
    rcases List.mem_append.mp hkv with h | h
    · exact hm kv h
    · have : kv = (k, nd) := List.mem_singleton.mp h
      subst this
      exact hnd

theorem nodeGet_some_mem (m : List (PyVal × PyDict)) (k : PyVal) (v : PyDict)
    (h : nodeGet m k = some v) : (k, v) ∈ m := by
  induction m with
  | nil => cases h
  | cons kv m ih =>
    obtain ⟨k1, v1⟩ := kv
    by_cases h1 : k1 = k
    · rw [nodeGet, if_pos h1] at h
      subst h1
      exact List.mem_cons.mpr (Or.inl (by rw [Option.some.inj h]))
    · rw [nodeGet, if_neg h1] at h
      exact List.mem_cons.mpr (Or.inr (ih h))

/-! A generic fold-invariant helper. -/

theorem foldl_preserve {α σ : Type _} {P : σ → Prop} (f : σ → α → σ)
    (hstep : ∀ s a, P s → P (f s a)) :
    ∀ (l : List α) (s : σ), P s → P (l.foldl f s) := by
  intro l
  induction l with
  | nil => exact fun s hs => hs
  | cons x xs ih => exact fun s hs => ih _ (hstep s x hs)

/-! Case-analysis lemmas for one processing step. -/

theorem processRelData_rels_origin (p : TParams) (st : TState) (rdv : PyVal) :
    ((processRelData p st rdv).rels = st.rels ∧
     (processRelData p st rdv).processedRelIds = st.processedRelIds) ∨
    (∃ rd sid eid tr, rdv = PyVal.dict rd ∧
      transformSingleRelationship p rd sid eid = some tr ∧
      ((pyGet tr "id").getD PyVal.none) ∉ st.processedRelIds ∧
      (processRelData p st rdv).rels = st.rels ++ [tr] ∧
      (processRelData p st rdv).processedRelIds =
        st.processedRelIds ++ [(pyGet tr "id").getD PyVal.none]) := by
  cases rdv with
  | dict rd =>
    simp only [processRelData]
    split
    · split
      · split
        case isTrue.h_1 tr htr =>
          split
          case isTrue => exact Or.inl ⟨rfl, rfl⟩
          case isFalse hmem =>
            exact Or.inr ⟨rd, _, _, tr, rfl, htr, hmem, rfl, rfl⟩
        case isTrue.h_2 => exact Or.inl ⟨rfl, rfl⟩
      · exact Or.inl ⟨rfl, rfl⟩
    · exact Or.inl ⟨rfl, rfl⟩
  | str s => exact Or.inl ⟨rfl, rfl⟩
  | num q => exact Or.inl ⟨rfl, rfl⟩
  | bool b => exact Or.inl ⟨rfl, rfl⟩
  | none => exact Or.inl ⟨rfl, rfl⟩
  | list l => exact Or.inl ⟨rfl, rfl⟩

theorem processRelData_nodeGet_preserved (p : TParams) (st : TState) (rdv : PyVal)
    (k : PyVal) (v : PyDict) (h : nodeGet st.uniqueNodes k = some v) :
    nodeGet (processRelData p st rdv).uniqueNodes k = some v := by
  cases rdv with
  | dict rd =>
    simp only [processRelData]
    split
    · split
      · split
        · split
          · exact nodeGet_registerNode_preserved _ _ _ _ _
              (nodeGet_registerNode_preserved _ _ _ _ _ h)
          · exact nodeGet_registerNode_preserved _ _ _ _ _
              (nodeGet_registerNode_preserved _ _ _ _ _ h)
        · exact nodeGet_registerNode_preserved _ _ _ _ _
            (nodeGet_registerNode_preserved _ _ _ _ _ h)
      · exact h
    · exact h
  | str s => exact h
  | num q => exact h
  | bool b => exact h
  | none => exact h
  | list l => exact h

theorem processRelData_nodes_inv (p : TParams) (st : TState) (rdv : PyVal)
    (h : (st.uniqueNodes.map Prod.fst).Nodup ∧
      ∀ kv ∈ st.uniqueNodes, pyGet kv.2 "id" = some kv.1) :
    ((processRelData p st rdv).uniqueNodes.map Prod.fst).Nodup ∧
      ∀ kv ∈ (processRelData p st rdv).uniqueNodes, pyGet kv.2 "id" = some kv.1 := by
  cases rdv with
  | dict rd =>
    simp only [processRelData]
    split
    case h_1 sn sid en eid heq =>
      -- extract the id fields of the two registered nodes
      simp only [extract_nodes_and_ids, Prod.mk.injEq] at heq
      obtain ⟨h1, h2, h3, h4⟩ := heq
      rw [h1] at h2
      rw [h3] at h4
      simp only [Option.some_bind] at h2 h4
      split
      · split
        · split
          · exact ⟨registerNode_keys_nodup _ _ _ (registerNode_keys_nodup _ _ _ h.1),
              registerNode_id_prop _ _ _ (registerNode_id_prop _ _ _ h.2 h2) h4⟩
          · exact ⟨registerNode_keys_nodup _ _ _ (registerNode_keys_nodup _ _ _ h.1),
              registerNode_id_prop _ _ _ (registerNode_id_prop _ _ _ h.2 h2) h4⟩
        · exact ⟨registerNode_keys_nodup _ _ _ (registerNode_keys_nodup _ _ _ h.1),
            registerNode_id_prop _ _ _ (registerNode_id_prop _ _ _ h.2 h2) h4⟩
      · exact h
    case h_2 => exact h
  | str s => exact h
  | num q => exact h
  | bool b => exact h
  | none => exact h
  | list l => exact h

/-- C2: on the single-record input of the spec, transform_data returns
exactly the two nodes and the one edge with id 1_KNOWS_2. -/
theorem c2_single_record_exact_output :
    transform_data DEFAULT_PARAMS c2Input
      = { nodes := [[("id", .str "1")], [("id", .str "2")]],
          relationships :=
            [[("id", .str "1_KNOWS_2"), ("source", .str "1"),
              ("target", .str "2"), ("type", .str "KNOWS")]] } := by
  decide

/-- C1 counterexample: on a record that carries its own id property, the
emitted edge has source 1, kind KNOWS and target 2, but its id field is
the record property value custom, not 1_KNOWS_2: the copy loop
overwrites the generated id. -/
theorem c1_counterexample_record_id_overwrites :
    (transform_data DEFAULT_PARAMS c1Input).relationships =
      [[("id", .str "custom"), ("source", .str "1"),
        ("target", .str "2"), ("type", .str "KNOWS")]] ∧
    PyVal.str "custom" ≠ PyVal.str (generate_relationship_id "1" "KNOWS" "2") := by
  decide

/-- C5 counterexample: with the kind tag configured as kind, the emitted
edge carries the configured kind tag key as a copied property, which the
claim says never happens. -/
theorem c5_counterexample_kind_tag_copied :
    (transform_data c5Params c5Input).relationships =
      [[("id", .str "1_KNOWS_2"), ("source", .str "1"), ("target", .str "2"),
        ("type", .str "KNOWS"), ("kind", .str "KNOWS")]] ∧
    pyGet [("id", .str "1_KNOWS_2"), ("source", .str "1"), ("target", .str "2"),
        ("type", .str "KNOWS"), ("kind", .str "KNOWS")]
      c5Params.relationship_type_tag = some (.str "KNOWS") := by
  decide

/-- C8: the pxlsviz route handler resolves any two requests to the same
hardcoded fixed graph; the transform result computed from the request is
discarded, so the response is independent of input and parameters. -/
theorem c8_route_response_independent_of_input :
    ∀ (a : PyVal) (pa : TParams) (b : PyVal) (pb : TParams),
      transform_to_pxlsviz_route a pa = transform_to_pxlsviz_route b pb ∧
      transform_to_pxlsviz_route a pa = Except.ok fixedPxLSVizGraph :=
  fun _ _ _ _ => ⟨rfl, rfl⟩

/-- C9: when the database collaborator raises, QueryService returns an
error envelope whose metadata holds the query and parameters (nothing is
raised: the function is total into QueryResponse), while ReadKGService
re-raises the same failure. -/
theorem c9_error_policy_envelope_vs_propagate :
    ∀ (q : String) (params : Option PyDict) (rid e : String),
      QueryService_execute_cypher_query q params rid (Except.error e) =
        { status := "error",
          error := some ("Error executing query: " ++ e),
          metadata := [("query", .str q), ("parameters", .dict (params.getD [])),
                       ("request_id", .str rid)] } ∧
      pyGet (QueryService_execute_cypher_query q params rid (Except.error e)).metadata
          "query" = some (.str q) ∧
      pyGet (QueryService_execute_cypher_query q params rid (Except.error e)).metadata
          "parameters" = some (.dict (params.getD [])) ∧
      ReadKGService_execute_cypher_query q params rid (Except.error e) = Except.error e :=
  fun _ _ _ _ => ⟨rfl, rfl, rfl, rfl⟩

/-- C10: a string value whose stripped form starts with a JSON opener is
re-parsed and replaced by the recursively converted parse result; a
failed parse or a non-JSON-looking string is returned unchanged. -/
theorem c10_string_reparse_policy :
    ∀ (parse : String → Option NVal) (fuel : Nat) (s : String),
      (looksLikeJson s = false →
        convert_to_serializable parse (fuel + 1) (.str s) = .str s) ∧
      (looksLikeJson s = true → parse s = Option.none →
        convert_to_serializable parse (fuel + 1) (.str s) = .str s) ∧
      (∀ v, looksLikeJson s = true → parse s = some v →
        convert_to_serializable parse (fuel + 1) (.str s) =
          convert_to_serializable parse fuel v) := by
  intro parse fuel s
  refine ⟨fun h => ?_, fun h hp => ?_, fun v h hp => ?_⟩
  · simp [convert_to_serializable, h]
  · simp [convert_to_serializable, h, hp]
  · simp [convert_to_serializable, h, hp]

/-- Witness for C10 at a concrete parser: a plain string is unchanged, a
JSON-looking string that fails to parse is unchanged, and a parsable
one is replaced by its converted parse. -/
theorem c10_string_reparse_policy_witness :
    (looksLikeJson "hello" = false ∧
      convert_to_serializable c10Parse 1 (.str "hello") = .str "hello") ∧
    (looksLikeJson "\x7bbad" = true ∧ c10Parse "\x7bbad" = Option.none ∧
      convert_to_serializable c10Parse 1 (.str "\x7bbad") = .str "\x7bbad") ∧
    (looksLikeJson "[1]" = true ∧ c10Parse "[1]" = some (.list [.num 1]) ∧
      convert_to_serializable c10Parse 1 (.str "[1]") = .list [.num 1]) := by
  refine ⟨⟨by decide, (c10_string_reparse_policy c10Parse 0 "hello").1 (by decide)⟩,
    ⟨by decide, rfl, (c10_string_reparse_policy c10Parse 0 "\x7bbad").2.1 (by decide) rfl⟩,
    ⟨by decide, rfl, ?_⟩⟩
  have h3 := (c10_string_reparse_policy c10Parse 0 "[1]").2.2 (.list [.num 1])
    (by decide) rfl
  exact h3.trans rfl

/-! The graph-relevant effect of a step does not depend on the skipped
counter: processing commutes with incrementing it. -/

theorem processRelData_bumpSkip (p : TParams) (st : TState) (rdv : PyVal) :
    processRelData p (bumpSkip st) rdv = bumpSkip (processRelData p st rdv) := by
  cases rdv with
  | dict rd =>
    simp only [processRelData, bumpSkip]
    split
    · split
      · split
        · split
          · rfl
          · rfl
        · rfl
      · rfl
    · rfl
  | str s => rfl
  | num q => rfl
  | bool b => rfl
  | none => rfl
  | list l => rfl

theorem foldRel_bumpSkip (p : TParams) (l : List (String × PyVal)) (st : TState) :
    l.foldl (fun s kv => processRelData p s kv.2) (bumpSkip st)
      = bumpSkip (l.foldl (fun s kv => processRelData p s kv.2) st) := by
  induction l generalizing st with
  | nil => rfl
  | cons kv l ih =>
    rw [List.foldl_cons, List.foldl_cons, processRelData_bumpSkip, ih]

theorem processItem_bumpSkip (p : TParams) (st : TState) (item : PyVal) :
    processItem p (bumpSkip st) item = bumpSkip (processItem p st item) := by
  cases item with
  | dict d => exact foldRel_bumpSkip p d st
  | str s => rfl
  | num q => rfl
  | bool b => rfl
  | none => rfl
  | list l => rfl

theorem foldItems_bumpSkip (p : TParams) (items : List PyVal) (st : TState) :
    items.foldl (processItem p) (bumpSkip st)
      = bumpSkip (items.foldl (processItem p) st) := by
  induction items generalizing st with
  | nil => rfl
  | cons item items ih =>
    rw [List.foldl_cons, List.foldl_cons, processItem_bumpSkip, ih]

/-! Every emitted edge originates from _transform_single_relationship
applied to some relationship-record value of the input. -/

theorem foldRel_rels_origin (p : TParams) (l : List (String × PyVal)) (st : TState) :
    ∀ e ∈ (l.foldl (fun s kv => processRelData p s kv.2) st).rels,
      e ∈ st.rels ∨ ∃ kv ∈ l, ∃ rd sid eid, kv.2 = PyVal.dict rd ∧
        transformSingleRelationship p rd sid eid = some e := by
  induction l generalizing st with
  | nil => exact fun e he => Or.inl he
  | cons kv l ih =>
    intro e he
    rw [List.foldl_cons] at he
    rcases ih _ e he with h1 | ⟨kv2, hkv2, rest⟩
    · rcases processRelData_rels_origin p st kv.2 with ⟨hr, _⟩ |
        ⟨rd, sid, eid, tr, hdict, htr, _, hr, _⟩
      · rw [hr] at h1
        exact Or.inl h1
      · rw [hr] at h1
        rcases List.mem_append.mp h1 with h2 | h2
        · exact Or.inl h2
        · have he2 : e = tr := List.mem_singleton.mp h2
          subst he2
          exact Or.inr ⟨kv, List.mem_cons_self _ _, rd, sid, eid, hdict, htr⟩
    · exact Or.inr ⟨kv2, List.mem_cons_of_mem _ hkv2, rest⟩

theorem foldItems_rels_origin (p : TParams) (items : List PyVal) (st : TState) :
    ∀ e ∈ (items.foldl (processItem p) st).rels,
      e ∈ st.rels ∨ ∃ item ∈ items, ∃ d, item = PyVal.dict d ∧
        ∃ kv ∈ d, ∃ rd sid eid, kv.2 = PyVal.dict rd ∧
          transformSingleRelationship p rd sid eid = some e := by
  induction items generalizing st with
  | nil => exact fun e he => Or.inl he
  | cons item items ih =>
    intro e he
    rw [List.foldl_cons] at he
    rcases ih _ e he with h1 | ⟨it, hit, rest⟩
    · cases hitem : item with
      | dict d =>
        rw [hitem] at h1
        rcases foldRel_rels_origin p d st e h1 with h2 | ⟨kv, hkv, rest2⟩
        · exact Or.inl h2
        · exact Or.inr ⟨PyVal.dict d, List.mem_cons_self _ _, d, rfl, kv, hkv, rest2⟩
      | str s => rw [hitem] at h1; exact Or.inl h1
      | num q => rw [hitem] at h1; exact Or.inl h1
      | bool b => rw [hitem] at h1; exact Or.inl h1
      | none => rw [hitem] at h1; exact Or.inl h1
      | list l => rw [hitem] at h1; exact Or.inl h1
    · exact Or.inr ⟨it, List.mem_cons_of_mem _ hit, rest⟩

/-- Each step appends to the edge list without touching earlier edges. -/
theorem processItem_rels_append (p : TParams) (st : TState) (item : PyVal) :
    ∃ u, (processItem p st item).rels = st.rels ++ u := by
  cases item with
  | dict d =>
    simp only [processItem]
    induction d generalizing st with
    | nil => exact ⟨[], by simp⟩
    | cons kv d ih =>
      rw [List.foldl_cons]
      obtain ⟨u, hu⟩ := ih (processRelData p st kv.2)
      rcases processRelData_rels_origin p st kv.2 with ⟨hr, _⟩ |
        ⟨rd, sid, eid, tr, _, _, _, hr, _⟩
      · exact ⟨u, by rw [hu, hr]⟩
      · exact ⟨[tr] ++ u, by rw [hu, hr, List.append_assoc]⟩
  | str s => exact ⟨[], by simp [processItem]⟩
  | num q => exact ⟨[], by simp [processItem]⟩
  | bool b => exact ⟨[], by simp [processItem]⟩
  | none => exact ⟨[], by simp [processItem]⟩
  | list l => exact ⟨[], by simp [processItem]⟩

/-! Item-level lifts of the step lemmas. -/

theorem processItem_nodes_inv (p : TParams) (st : TState) (item : PyVal)
    (h : (st.uniqueNodes.map Prod.fst).Nodup ∧
      ∀ kv ∈ st.uniqueNodes, pyGet kv.2 "id" = some kv.1) :
    ((processItem p st item).uniqueNodes.map Prod.fst).Nodup ∧
      ∀ kv ∈ (processItem p st item).uniqueNodes, pyGet kv.2 "id" = some kv.1 := by
  cases item with
  | dict d =>
    exact foldl_preserve _ (fun s kv hs => processRelData_nodes_inv p s kv.2 hs) d st h
  | str s => exact h
  | num q => exact h
  | bool b => exact h
  | none => exact h
  | list l => exact h

theorem processItem_nodeGet_preserved (p : TParams) (st : TState) (item : PyVal)
    (k : PyVal) (v : PyDict) (h : nodeGet st.uniqueNodes k = some v) :
    nodeGet (processItem p st item).uniqueNodes k = some v := by
  cases item with
  | dict d =>
    exact foldl_preserve _
      (fun s kv hs => processRelData_nodeGet_preserved p s kv.2 k v hs) d st h
  | str s => exact h
  | num q => exact h
  | bool b => exact h
  | none => exact h
  | list l => exact h

theorem processRelData_dedup_inv (p : TParams) (st : TState) (rdv : PyVal)
    (h : (st.rels.map (fun e => (pyGet e "id").getD PyVal.none)).Nodup ∧
      ∀ x, x ∈ st.processedRelIds ↔
        x ∈ st.rels.map (fun e => (pyGet e "id").getD PyVal.none)) :
    ((processRelData p st rdv).rels.map
        (fun e => (pyGet e "id").getD PyVal.none)).Nodup ∧
      ∀ x, x ∈ (processRelData p st rdv).processedRelIds ↔
        x ∈ (processRelData p st rdv).rels.map
          (fun e => (pyGet e "id").getD PyVal.none) := by
  rcases processRelData_rels_origin p st rdv with ⟨hr, hp⟩ |
    ⟨rd, sid, eid, tr, _, _, hmem, hr, hp⟩
  · rw [hr, hp]
    exact h
  · rw [hr, hp]
    have hnotin : (pyGet tr "id").getD PyVal.none ∉
        st.rels.map (fun e => (pyGet e "id").getD PyVal.none) :=
      fun hem => hmem ((h.2 _).mpr hem)
    constructor
    · rw [List.map_append]
      simp [List.nodup_append, h.1, hnotin]
    · intro x
      rw [List.map_append]
      simp only [List.mem_append, List.map_cons, List.map_nil,
        List.mem_singleton, h.2 x]

theorem processItem_dedup_inv (p : TParams) (st : TState) (item : PyVal)
    (h : (st.rels.map (fun e => (pyGet e "id").getD PyVal.none)).Nodup ∧
      ∀ x, x ∈ st.processedRelIds ↔
        x ∈ st.rels.map (fun e => (pyGet e "id").getD PyVal.none)) :
    ((processItem p st item).rels.map
        (fun e => (pyGet e "id").getD PyVal.none)).Nodup ∧
      ∀ x, x ∈ (processItem p st item).processedRelIds ↔
        x ∈ (processItem p st item).rels.map
          (fun e => (pyGet e "id").getD PyVal.none) := by
  cases item with
  | dict d =>
    exact foldl_preserve _ (fun s kv hs => processRelData_dedup_inv p s kv.2 hs) d st h
  | str s => exact h
  | num q => exact h
  | bool b => exact h
  | none => exact h
  | list l => exact h

/-- C3: for every input and node id, the nodes output holds at most one
node with that id, and a node registered after some prefix of the input
is still, unchanged, the node returned for that id at the end of the
run: later occurrences never overwrite an already-registered id. -/
theorem c3_nodes_unique_first_seen_wins :
    (∀ (p : TParams) (input : PyVal),
      ((transform_data p input).nodes.map (fun nd => pyGet nd "id")).Nodup) ∧
    (∀ (p : TParams) (pre post : List PyVal) (k : PyVal) (v : PyDict),
      nodeGet (runItems p pre).uniqueNodes k = some v →
        nodeGet (runItems p (pre ++ post)).uniqueNodes k = some v ∧
        v ∈ (transform_data p (.list (pre ++ post))).nodes) := by
  constructor
  · intro p input
    cases input with
    | list items =>
      have hinv := foldl_preserve (processItem p)
        (fun s a hs => processItem_nodes_inv p s a hs) items {}
        ⟨List.nodup_nil, fun kv hkv => absurd hkv (List.not_mem_nil kv)⟩
      obtain ⟨hnd, hid⟩ := hinv
      show (((runItems p items).uniqueNodes.map (fun kv => kv.2)).map
        (fun nd => pyGet nd "id")).Nodup
      rw [List.map_map]
      have hcongr : ((runItems p items).uniqueNodes.map
            (fun kv => pyGet kv.2 "id"))
          = ((runItems p items).uniqueNodes.map (fun kv => some kv.1)) :=
        List.map_congr_left (fun kv hkv => hid kv hkv)
      show (((runItems p items).uniqueNodes).map
        (fun kv => pyGet kv.2 "id")).Nodup
      rw [hcongr]
      rw [show (fun kv : PyVal × PyDict => some kv.1)
        = (Option.some ∘ Prod.fst) from rfl]
      rw [← List.map_map]
      exact List.Nodup.map (Option.some_injective _) hnd
    | str s => exact List.nodup_nil
    | num q => exact List.nodup_nil
    | bool b => exact List.nodup_nil
    | none => exact List.nodup_nil
    | dict d => exact List.nodup_nil
  · intro p pre post k v h
    have hfinal : nodeGet (runItems p (pre ++ post)).uniqueNodes k = some v := by
      rw [runItems, List.foldl_append]
      exact foldl_preserve (processItem p)
        (fun s a hs => processItem_nodeGet_preserved p s a k v hs) post _ h
    refine ⟨hfinal, ?_⟩
    have hmem := nodeGet_some_mem _ _ _ hfinal
    exact List.mem_map.mpr ⟨(k, v), hmem, rfl⟩

/-- Witness for C3: after the first record registers node 1, a second
record carrying different properties for node 1 does not overwrite it. -/
theorem c3_first_seen_wins_witness :
    nodeGet (runItems DEFAULT_PARAMS
      ([.dict [("r", .dict [("start", .dict [("id", .str "1")]),
          ("end", .dict [("id", .str "2")]), ("type", .str "A")])]] ++
       [.dict [("r", .dict [("start", .dict [("id", .str "1"), ("name", .str "dup")]),
          ("end", .dict [("id", .str "3")]), ("type", .str "B")])]])).uniqueNodes
      (.str "1") = some [("id", .str "1")] ∧
    [("id", .str "1")] ∈ (transform_data DEFAULT_PARAMS (.list
      ([.dict [("r", .dict [("start", .dict [("id", .str "1")]),
          ("end", .dict [("id", .str "2")]), ("type", .str "A")])]] ++
       [.dict [("r", .dict [("start", .dict [("id", .str "1"), ("name", .str "dup")]),
          ("end", .dict [("id", .str "3")]), ("type", .str "B")])]]))).nodes :=
  c3_nodes_unique_first_seen_wins.2 DEFAULT_PARAMS
    [.dict [("r", .dict [("start", .dict [("id", .str "1")]),
        ("end", .dict [("id", .str "2")]), ("type", .str "A")])]]
    [.dict [("r", .dict [("start", .dict [("id", .str "1"), ("name", .str "dup")]),
        ("end", .dict [("id", .str "3")]), ("type", .str "B")])]]
    (.str "1") [("id", .str "1")] (by decide)

/-- C4: edge ids in the output are pairwise distinct, processing only
ever appends to the edge list (so the first edge with a given id is kept
untouched and later duplicates are dropped, not merged), and on the
duplicate-id example only the first record's edge, properties included,
survives. -/
theorem c4_edges_dedup_first_wins :
    (∀ (p : TParams) (input : PyVal),
      ((transform_data p input).relationships.map
        (fun e => (pyGet e "id").getD PyVal.none)).Nodup) ∧
    (∀ (p : TParams) (pre post : List PyVal),
      ∃ u, (runItems p (pre ++ post)).rels = (runItems p pre).rels ++ u) ∧
    ((transform_data DEFAULT_PARAMS c4DupInput).relationships =
      [[("id", .str "1_KNOWS_2"), ("source", .str "1"), ("target", .str "2"),
        ("type", .str "KNOWS"), ("weight", .num 1)]]) := by
  refine ⟨?_, ?_, by decide⟩
  · intro p input
    cases input with
    | list items =>
      have hinv := foldl_preserve (processItem p)
        (fun s a hs => processItem_dedup_inv p s a hs) items {}
        ⟨List.nodup_nil, fun x => by simp⟩
      exact hinv.1
    | str s => exact List.nodup_nil
    | num q => exact List.nodup_nil
    | bool b => exact List.nodup_nil
    | none => exact List.nodup_nil
    | dict d => exact List.nodup_nil
  · intro p pre post
    rw [runItems, List.foldl_append]
    exact foldl_preserve
      (P := fun s => ∃ u, s.rels = (runItems p pre).rels ++ u)
      (processItem p)
      (fun s a hs => by
        obtain ⟨u1, hu1⟩ := hs
        obtain ⟨u2, hu2⟩ := processItem_rels_append p s a
        exact ⟨u1 ++ u2, by rw [hu2, hu1, List.append_assoc]⟩)
      post _ ⟨[], (List.append_nil _).symm⟩

/-- C6: a record with valid source and target nodes but an invalid kind
(missing, empty or non-string) still registers both nodes, emits no edge,
and is counted as skipped: registration happens before type validation. -/
theorem c6_nodes_registered_before_type_validation (p : TParams) (st : TState)
    (rd : PyDict) (sn en : PyDict) (sid eid : PyVal)
    (hx : extract_nodes_and_ids p rd = (some sn, some sid, some en, some eid))
    (ht : (pyTruthy (.dict sn) && pyTruthy sid && pyTruthy (.dict en) && pyTruthy eid)
      = true)
    (hbad : InvalidRelType p rd) :
    (nodeGet (processRelData p st (.dict rd)).uniqueNodes sid).isSome = true ∧
    (nodeGet (processRelData p st (.dict rd)).uniqueNodes eid).isSome = true ∧
    (processRelData p st (.dict rd)).rels = st.rels ∧
    (processRelData p st (.dict rd)).skipped = st.skipped + 1 := by
  have hnone : transformSingleRelationship p rd sid eid = Option.none := by
    unfold transformSingleRelationship
    cases hg : pyGet rd p.relationship_type_tag with
    | none => rfl
    | some w =>
      cases w with
      | str t =>
        have ht0 : t = "" := hbad t hg
        rw [ht0]
        rfl
      | num q => rfl
      | bool b => rfl
      | none => rfl
      | list l => rfl
      | dict d => rfl
  simp only [processRelData]
  split
  case h_1 sn2 sid2 en2 eid2 heq =>
    rw [hx] at heq
    simp only [Prod.mk.injEq, Option.some.injEq] at heq
    obtain ⟨e1, e2, e3, e4⟩ := heq
    subst e1
    subst e2
    subst e3
    subst e4
    rw [if_pos ht, hnone]
    refine ⟨?_, ?_, rfl, rfl⟩
    · exact nodeGet_registerNode_isSome _ _ _ _ (nodeGet_registerNode_self _ _ _)
    · exact nodeGet_registerNode_self _ _ _
  case h_2 hne =>
    exact absurd hx (hne _ _ _ _)

/-- Witness for C6: a record with both nodes valid and no type field. -/
theorem c6_nodes_registered_witness :
    (nodeGet (processRelData DEFAULT_PARAMS {} (.dict c6Record)).uniqueNodes
      (.str "1")).isSome = true ∧
    (nodeGet (processRelData DEFAULT_PARAMS {} (.dict c6Record)).uniqueNodes
      (.str "2")).isSome = true ∧
    (processRelData DEFAULT_PARAMS {} (.dict c6Record)).rels = TState.rels {} ∧
    (processRelData DEFAULT_PARAMS {} (.dict c6Record)).skipped =
      TState.skipped {} + 1 :=
  c6_nodes_registered_before_type_validation DEFAULT_PARAMS {} c6Record
    [("id", .str "1")] [("id", .str "2")] (.str "1") (.str "2")
    (by decide) (by decide)
    (by
      intro t h
      rw [show pyGet c6Record DEFAULT_PARAMS.relationship_type_tag = Option.none
        from rfl] at h
      exact Option.noConfusion h)

/-- C7: a non-list input yields the empty graph without failing; inside a
list, a non-dict item or non-dict relationship value is skipped and
counted while the rest of the batch is processed unchanged. -/
theorem c7_malformed_input_tolerance :
    (∀ (p : TParams) (v : PyVal), isListVal v = false →
      transform_data p v = { nodes := [], relationships := [] }) ∧
    (∀ (p : TParams) (st : TState) (rel : PyVal), isDictVal rel = false →
      processRelData p st rel = bumpSkip st) ∧
    (∀ (p : TParams) (pre : List PyVal) (bad : PyVal) (post : List PyVal),
      isDictVal bad = false →
      runItems p (pre ++ bad :: post) = bumpSkip (runItems p (pre ++ post)) ∧
      transform_data p (.list (pre ++ bad :: post)) =
        transform_data p (.list (pre ++ post))) := by
  have hstep : ∀ (p : TParams) (st : TState) (rel : PyVal), isDictVal rel = false →
      processRelData p st rel = bumpSkip st := by
    intro p st rel h
    cases rel with
    | dict d => simp [isDictVal] at h
    | str s => rfl
    | num q => rfl
    | bool b => rfl
    | none => rfl
    | list l => rfl
  have hitem : ∀ (p : TParams) (st : TState) (bad : PyVal), isDictVal bad = false →
      processItem p st bad = bumpSkip st := by
    intro p st bad h
    cases bad with
    | dict d => simp [isDictVal] at h
    | str s => rfl
    | num q => rfl
    | bool b => rfl
    | none => rfl
    | list l => rfl
  refine ⟨?_, hstep, ?_⟩
  · intro p v h
    cases v with
    | list l => simp [isListVal] at h
    | str s => rfl
    | num q => rfl
    | bool b => rfl
    | none => rfl
    | dict d => rfl
  · intro p pre bad post h
    have key : runItems p (pre ++ bad :: post) = bumpSkip (runItems p (pre ++ post)) := by
      rw [runItems, runItems, List.foldl_append, List.foldl_append, List.foldl_cons]
      rw [hitem p _ bad h]
      exact foldItems_bumpSkip p post _
    refine ⟨key, ?_⟩
    simp only [transform_data]
    rw [key]
    rfl

/-- Witness for C7: a dict as top-level input, a number as relationship
value, and a stray string item in a batch. -/
theorem c7_malformed_input_witness :
    transform_data DEFAULT_PARAMS (.dict []) = { nodes := [], relationships := [] } ∧
    processRelData DEFAULT_PARAMS {} (.num 7) = bumpSkip {} ∧
    runItems DEFAULT_PARAMS ([] ++ .str "x" ::
      [.dict [("rel", .dict [("start", .dict [("id", .str "1")]),
        ("end", .dict [("id", .str "2")]), ("type", .str "KNOWS")])]]) =
      bumpSkip (runItems DEFAULT_PARAMS ([] ++
        [.dict [("rel", .dict [("start", .dict [("id", .str "1")]),
          ("end", .dict [("id", .str "2")]), ("type", .str "KNOWS")])]])) :=
  ⟨c7_malformed_input_tolerance.1 DEFAULT_PARAMS (.dict []) (by decide),
   c7_malformed_input_tolerance.2.1 DEFAULT_PARAMS {} (.num 7) (by decide),
   (c7_malformed_input_tolerance.2.2 DEFAULT_PARAMS [] (.str "x")
      [.dict [("rel", .dict [("start", .dict [("id", .str "1")]),
        ("end", .dict [("id", .str "2")]), ("type", .str "KNOWS")])]]
      (by decide)).1⟩

/-- C1 amended: when no relationship record carries an id property of its
own, every emitted edge has id sourceId_kind_targetId; a record with its
own id property instead has that value copied over the generated id (see
the counterexample). -/
theorem c1_amended_edge_id_when_no_id_prop (items : List PyVal)
    (h : recordsHaveNoIdProp items) :
    ∀ e ∈ (transform_data DEFAULT_PARAMS (.list items)).relationships,
      ∃ sid eid t, pyGet e "source" = some sid ∧ pyGet e "target" = some eid ∧
        pyGet e "type" = some (PyVal.str t) ∧
        pyGet e "id" = some (.str (generate_relationship_id (pyStr sid) t (pyStr eid))) := by
  intro e he
  have he2 : e ∈ (runItems DEFAULT_PARAMS items).rels := he
  rcases foldItems_rels_origin DEFAULT_PARAMS items {} e he2 with h0 |
    ⟨item, hitem, d, hd, kv, hkv, rd, sid, eid, hrd, htr⟩
  · exact absurd h0 (List.not_mem_nil e)
  · obtain ⟨hid, hnd⟩ := h item hitem d hd kv hkv rd hrd
    obtain ⟨t, hg, ht, htr2⟩ := transformSingle_eq_some _ _ _ _ _ htr
    obtain ⟨hsrc, htgt⟩ := transformSingle_fixed_fields _ _ _ _ _ htr
    subst htr2
    refine ⟨sid, eid, t, hsrc, htgt, ?_, ?_⟩
    · have htmem : "type" ∉ excludedKeys DEFAULT_PARAMS := by decide
      exact copyProps_pyGet_mem _ _ _ _ _ htmem hnd hg
    · rw [copyProps_pyGet_notin _ _ _ _ hid]
      rfl

/-- Witness for C1 amended at the single-record example. -/
theorem c1_amended_edge_id_witness :
    ∃ sid eid t,
      pyGet [("id", .str "1_KNOWS_2"), ("source", .str "1"),
        ("target", .str "2"), ("type", .str "KNOWS")] "source" = some sid ∧
      pyGet [("id", .str "1_KNOWS_2"), ("source", .str "1"),
        ("target", .str "2"), ("type", .str "KNOWS")] "target" = some eid ∧
      pyGet [("id", .str "1_KNOWS_2"), ("source", .str "1"),
        ("target", .str "2"), ("type", .str "KNOWS")] "type" = some (PyVal.str t) ∧
      pyGet [("id", .str "1_KNOWS_2"), ("source", .str "1"),
        ("target", .str "2"), ("type", .str "KNOWS")] "id" =
        some (.str (generate_relationship_id (pyStr sid) t (pyStr eid))) :=
  c1_amended_edge_id_when_no_id_prop
    [.dict [("rel", .dict
      [("start", .dict [("id", .str "1")]),
       ("end", .dict [("id", .str "2")]),
       ("type", .str "KNOWS")])]]
    (by
      intro item hitem d hd kv hkv rd hrd
      rw [List.mem_singleton] at hitem
      subst hitem
      injection hd with hd2
      subst hd2
      rw [List.mem_singleton] at hkv
      subst hkv
      injection hrd with hrd2
      subst hrd2
      exact ⟨rfl, by decide⟩)
    [("id", .str "1_KNOWS_2"), ("source", .str "1"),
     ("target", .str "2"), ("type", .str "KNOWS")]
    (by decide)

/-- C5 amended: the emitted edge carries every record property whose key
is outside the configured source tag, target tag and the fixed keys
source, target, start, end; the configured kind tag key is not excluded
(it is copied, coinciding with the fixed type field only under the
default configuration), and the fixed source and target fields hold the
node ids. -/
theorem c5_amended_copied_properties (p : TParams) (rd : PyDict) (sid eid : PyVal)
    (tr : PyDict) (hnd : (rd.map Prod.fst).Nodup)
    (h : transformSingleRelationship p rd sid eid = some tr) :
    (∀ kv ∈ rd, kv.1 ∉ excludedKeys p → pyGet tr kv.1 = some kv.2) ∧
    pyGet tr "source" = some sid ∧ pyGet tr "target" = some eid := by
  refine ⟨?_, transformSingle_fixed_fields p rd sid eid tr h⟩
  intro kv hkv hex
  obtain ⟨t, hg, ht, htr⟩ := transformSingle_eq_some p rd sid eid tr h
  subst htr
  exact copyProps_pyGet_mem _ _ _ _ _ hex hnd (pyGet_of_mem_nodup rd kv hnd hkv)

/-- Witness for C5 amended under the non-default kind tag. -/
theorem c5_amended_copied_properties_witness :
    pyGet [("id", .str "1_KNOWS_2"), ("source", .str "1"), ("target", .str "2"),
      ("type", .str "KNOWS"), ("kind", .str "KNOWS")] "kind" = some (.str "KNOWS") ∧
    pyGet [("id", .str "1_KNOWS_2"), ("source", .str "1"), ("target", .str "2"),
      ("type", .str "KNOWS"), ("kind", .str "KNOWS")] "source" = some (.str "1") :=
  ⟨(c5_amended_copied_properties c5Params
      [("start", .dict [("id", .str "1")]), ("end", .dict [("id", .str "2")]),
       ("kind", .str "KNOWS")]
      (.str "1") (.str "2")
      [("id", .str "1_KNOWS_2"), ("source", .str "1"), ("target", .str "2"),
       ("type", .str "KNOWS"), ("kind", .str "KNOWS")]
      (by decide) (by decide)).1 ("kind", .str "KNOWS") (by decide) (by decide),
   (c5_amended_copied_properties c5Params
      [("start", .dict [("id", .str "1")]), ("end", .dict [("id", .str "2")]),
       ("kind", .str "KNOWS")]
      (.str "1") (.str "2")
      [("id", .str "1_KNOWS_2"), ("source", .str "1"), ("target", .str "2"),
       ("type", .str "KNOWS"), ("kind", .str "KNOWS")]
      (by decide) (by decide)).2.1⟩
